import Mathlib

/-!
Verification development for the systematic-review-automation repository.

JavaScript strings are modelled as `List Char`; JavaScript string
truthiness (null / empty string are falsy) is modelled by `jsTruthy`.
Each definition is a shallow embedding of the correspondingly named
function of the source; I/O outcomes (file system, HTTP, browser) are
supplied by explicit world / environment records so that the control
flow of the source becomes a pure function of those outcomes.
-/

namespace SpecProof

/-- Whitespace as matched by the JS regexes and trim used in the sources
(ASCII whitespace characters). -/
def jsWs (c : Char) : Bool :=
  c = ' ' || c = '\t' || c = '\n' || c = '\r' || c = '\x0b' || c = '\x0c'

/-- JS truthiness of a nullable string: null and the empty string are falsy. -/
def jsTruthy : Option (List Char) → Bool
  | none => false
  | some l => !l.isEmpty

/-- JS String.prototype.includes: contiguous-substring test. -/
def jsIncludes (hay sub : List Char) : Bool :=
  decide (sub <:+: hay)

/-- Drop trailing characters satisfying p (used to model the trailing half
of String.prototype.trim and of the trailing-dot regex of sanitize). -/
def dropTrailing (p : Char → Bool) (l : List Char) : List Char :=
  (l.reverse.dropWhile p).reverse

/-- Model of JS String.prototype.trim on ASCII whitespace. -/
def trimChars (l : List Char) : List Char :=
  dropTrailing jsWs (l.dropWhile jsWs)

/-- Case-insensitive test that pre occurs at the start of l, modelling an
anchored case-insensitive regex literal match. -/
def lowerStarts (l pre : List Char) : Bool :=
  (l.take pre.length).map Char.toLower == pre

/-! RIS reference intake, from the RIS parsing source file (src/unnamed/part_000). -/

/-- The four concrete strings generated by the anchored case-insensitive
regex for an https or http doi.org or dx.doi.org resolver URL. -/
def doiHostForms : List (List Char) :=
  [("https://dx.doi.org/").toList, ("https://doi.org/").toList,
   ("http://dx.doi.org/").toList, ("http://doi.org/").toList]

/-- First replace of extractDOI: strip a leading DOI-resolver URL. -/
def stripDoiHost (l : List Char) : List Char :=
  match doiHostForms.find? (fun pre => lowerStarts l pre) with
  | some pre => l.drop pre.length
  | none => l

/-- Second replace of extractDOI: strip a leading case-insensitive doi:
label together with the whitespace that follows it. -/
def stripDoiLabel (l : List Char) : List Char :=
  if lowerStarts l (("doi:").toList) then (l.drop 4).dropWhile jsWs else l

/-- Model of RISParser._extractDOI: strip resolver URL, strip doi: label,
trim, and accept only a result starting with 10. -/
def extractDOI (v : List Char) : Option (List Char) :=
  let d := trimChars (stripDoiLabel (stripDoiHost v))
  if !d.isEmpty && (("10.").toList).isPrefixOf d then some d else none

/-- Word character of the JS regex escape for word characters. -/
def isWordChar (c : Char) : Bool :=
  c.isAlphanum || c = '_'

/-- A run of exactly n digits at the head of l whose right boundary is a
word boundary (end of string or a non-word character). -/
def digitsRunAt (l : List Char) (n : Nat) : Option (List Char) :=
  let seg := l.take n
  if seg.length = n && seg.all Char.isDigit &&
      (match l.drop n with
       | [] => true
       | c :: _ => !isWordChar c) then
    some seg
  else none

/-- Left-to-right scan for the first boundary-delimited run of 8 or 7
digits, 8 preferred, modelling the PMID regex of _extractPMID.
The Bool argument records whether the current position sits at a word
boundary coming from the left. -/
def pmidScan : List Char → Bool → Option (List Char)
  | [], _ => none
  | c :: rest, atB =>
    if atB then
      match digitsRunAt (c :: rest) 8 with
      | some seg => some seg
      | none =>
        match digitsRunAt (c :: rest) 7 with
        | some seg => some seg
        | none => pmidScan rest (!isWordChar c)
    else pmidScan rest (!isWordChar c)

/-- Model of RISParser._extractPMID. -/
def extractPMID (v : List Char) : Option (List Char) :=
  if v.isEmpty then none else pmidScan v true

/-- A parsed reference record; null JS fields are modelled by none, and
the authors array by a list. -/
structure Reference where
  rtype : Option (List Char) := none
  title : Option (List Char) := none
  authors : List (List Char) := []
  year : Option (List Char) := none
  journal : Option (List Char) := none
  volume : Option (List Char) := none
  issue : Option (List Char) := none
  startPage : Option (List Char) := none
  endPage : Option (List Char) := none
  doi : Option (List Char) := none
  pmid : Option (List Char) := none
  accessionNumber : Option (List Char) := none
  url : Option (List Char) := none
  rid : Option (List Char) := none
  abstract : Option (List Char) := none
  publisher : Option (List Char) := none
  authorsString : Option (List Char) := none
  firstAuthor : Option (List Char) := none
deriving DecidableEq, Repr

/-- The RIS tags understood by the field mapping, ER excluded since the
parse loop intercepts it before the mapping is consulted. -/
inductive RISField where
  | ftype | ftitle | fauthors | fyear | fjournal | fvolume | fissue
  | fstartPage | fendPage | fdoi | faccession | furl | fid | fabstract | fpublisher
deriving DecidableEq, Repr

/-- Model of the fieldMapping table of RISParser. -/
def fieldMapping : List Char → Option RISField
  | ['T', 'Y'] => some .ftype
  | ['T', 'I'] => some .ftitle
  | ['A', 'U'] => some .fauthors
  | ['P', 'Y'] => some .fyear
  | ['J', 'O'] => some .fjournal
  | ['V', 'L'] => some .fvolume
  | ['I', 'S'] => some .fissue
  | ['S', 'P'] => some .fstartPage
  | ['E', 'P'] => some .fendPage
  | ['D', 'O'] => some .fdoi
  | ['A', 'N'] => some .faccession
  | ['U', 'R'] => some .furl
  | ['I', 'D'] => some .fid
  | ['A', 'B'] => some .fabstract
  | ['P', 'B'] => some .fpublisher
  | _ => none

/-- Tag characters admitted by the RIS line regex: upper-case letters and
digits. -/
def isTagChar (c : Char) : Bool :=
  ('A' ≤ c && c ≤ 'Z') || c.isDigit

/-- Model of the RIS line regex applied to an already trimmed line: two
tag characters, at least one whitespace, a dash, optional whitespace,
then the value. Returns the tag and the value on a match. -/
def parseRISLine (l : List Char) : Option (List Char × List Char) :=
  match l with
  | c1 :: c2 :: rest =>
    if isTagChar c1 && isTagChar c2 then
      if (rest.takeWhile jsWs).isEmpty then none
      else
        match rest.dropWhile jsWs with
        | '-' :: rest2 => some ([c1, c2], rest2.dropWhile jsWs)
        | _ => none
    else none
  | _ => none

/-- Model of RISParser._isValidReference: JS truthiness of title, doi or
pmid. -/
def isValidReference (r : Reference) : Bool :=
  jsTruthy r.title || jsTruthy r.doi || jsTruthy r.pmid

/-- First occurrence of four consecutive digits, modelling the year
regex of _cleanReference. -/
def find4Digits : List Char → Option (List Char)
  | a :: b :: c :: d :: rest =>
    if a.isDigit && b.isDigit && c.isDigit && d.isDigit then some [a, b, c, d]
    else find4Digits (b :: c :: d :: rest)
  | _ => none

/-- First statement of RISParser._cleanReference: when authors are
present, join them with semicolons and record the first author. -/
def cleanAuthorsStep (r : Reference) : Reference :=
  if !r.authors.isEmpty then
    { r with authorsString := some (List.intercalate (("; ").toList) r.authors),
             firstAuthor := some (r.authors.headD []) }
  else r

/-- Second statement of RISParser._cleanReference: trim the title when
it is truthy. -/
def cleanTitleStep (r : Reference) : Reference :=
  match r.title with
  | some t => if !t.isEmpty then { r with title := some (trimChars t) } else r
  | none => r

/-- Third statement of RISParser._cleanReference: normalize a truthy
year to its first four-digit run when one exists. -/
def cleanYearStep (r : Reference) : Reference :=
  match r.year with
  | some y =>
    if !y.isEmpty then
      match find4Digits y with
      | some m => { r with year := some m }
      | none => r
    else r
  | none => r

/-- Model of RISParser._cleanReference: its three statements in source
order. -/
def cleanReference (r : Reference) : Reference :=
  cleanYearStep (cleanTitleStep (cleanAuthorsStep r))

/-- Application of one mapped RIS field to the record under construction,
mirroring the tag dispatch of the parse loop. -/
def applyField (f : RISField) (v : List Char) (r : Reference) : Reference :=
  match f with
  | .fauthors => { r with authors := r.authors ++ [v] }
  | .fdoi => { r with doi := extractDOI v }
  | .faccession =>
    let r2 :=
      match extractPMID v with
      | some p => { r with pmid := some p }
      | none => r
    { r2 with accessionNumber := some v }
  | .ftype => { r with rtype := some v }
  | .ftitle => { r with title := some v }
  | .fyear => { r with year := some v }
  | .fjournal => { r with journal := some v }
  | .fvolume => { r with volume := some v }
  | .fissue => { r with issue := some v }
  | .fstartPage => { r with startPage := some v }
  | .fendPage => { r with endPage := some v }
  | .furl => { r with url := some v }
  | .fid => { r with rid := some v }
  | .fabstract => { r with abstract := some v }
  | .fpublisher => { r with publisher := some v }

/-- The parse loop of RISParser.parse over the lines of the file: skip
blank lines, dispatch matched tag lines, flush the current record on ER
when valid, and flush a trailing valid record at end of input. -/
def parseLoop : List (List Char) → Reference → List Reference → List Reference
  | [], cur, acc => acc ++ (if isValidReference cur then [cleanReference cur] else [])
  | line :: rest, cur, acc =>
    let trimmed := trimChars line
    if trimmed.isEmpty then parseLoop rest cur acc
    else
      match parseRISLine trimmed with
      | none => parseLoop rest cur acc
      | some (tag, value) =>
        if tag = ['E', 'R'] then
          parseLoop rest {}
            (acc ++ (if isValidReference cur then [cleanReference cur] else []))
        else
          match fieldMapping tag with
          | none => parseLoop rest cur acc
          | some f => parseLoop rest (applyField f value cur) acc

/-- Model of RISParser.parse on a list of input lines. -/
def risParse (lines : List (List Char)) : List Reference :=
  parseLoop lines {} []

/-- Model of RISParser.parse on whole file contents, split at newline as
in the source. -/
def risParseContent (content : List Char) : List Reference :=
  risParse (content.splitOn '\n')

/-! Artifact filename derivation, from retrievePDF of
src/pdf-retriever/library-retriever.js together with the npm
sanitize-filename package it calls. -/

/-- Characters removed by the illegal-character regex of
sanitize-filename. -/
def isIllegalFileChar (c : Char) : Bool :=
  c = '/' || c = '?' || c = '<' || c = '>' || c = '\\' || c = ':' || c = '*' || c = '|' || c = '"'

/-- Control characters removed by sanitize-filename. -/
def isControlFileChar (c : Char) : Bool :=
  c.toNat ≤ 0x1f || (0x80 ≤ c.toNat && c.toNat ≤ 0x9f)

/-- Three and four letter reserved device names of the windows-reserved
regex of sanitize-filename, on an already lowercased string. -/
def reservedBaseName (l : List Char) : Bool :=
  match l with
  | ['c', 'o', 'n'] => true
  | ['p', 'r', 'n'] => true
  | ['a', 'u', 'x'] => true
  | ['n', 'u', 'l'] => true
  | ['c', 'o', 'm', d] => d.isDigit
  | ['l', 'p', 't', d] => d.isDigit
  | _ => false

/-- The windows-reserved regex: a reserved device name, alone or followed
by a dot and anything, case-insensitively. -/
def isWindowsReserved (l : List Char) : Bool :=
  let low := l.map Char.toLower
  reservedBaseName low
  || (reservedBaseName (low.take 3) && (low.drop 3).head? = some '.')
  || (reservedBaseName (low.take 4) && (low.drop 4).head? = some '.')

/-- Model of sanitize-filename with the default empty replacement: the
five sequential regex replacements followed by truncation. The final
truncation to 255 utf8 bytes is modelled as a character-prefix
truncation, which every utf8-byte truncation is. -/
def sanitizeFilename (l : List Char) : List Char :=
  let s1 := l.filter (fun c => !isIllegalFileChar c)
  let s2 := s1.filter (fun c => !isControlFileChar c)
  let s3 := if !s2.isEmpty && s2.all (fun c => c = '.') then [] else s2
  let s4 := if isWindowsReserved s3 then [] else s3
  let s5 := dropTrailing (fun c => c = '.' || c = ' ') s4
  s5.take 255

/-- The filename retrievePDF derives from a DOI when no custom filename
is given: slashes and backslashes replaced by underscores, sanitized,
with the pdf extension appended. -/
def filenameForDOI (doi : List Char) : List Char :=
  sanitizeFilename (doi.map (fun c => if c = '/' || c = '\\' then '_' else c)) ++ (".pdf").toList

/-! Strategy chain of src/pdf-retriever/library-retriever.js. -/

/-- The result object produced by the retrieval functions of
library-retriever.js, with absent JS fields modelled as none. -/
structure JsResult where
  success : Bool
  path : Option (List Char) := none
  source : Option (List Char) := none
  error : Option (List Char) := none
  alreadyExists : Bool := false
  doi : Option (List Char) := none
deriving DecidableEq, Repr

/-- Configuration read from the environment by the retriever constructor. -/
structure RetrieverConfig where
  unpaywallEmail : Option (List Char)
  username : Option (List Char)
  password : Option (List Char)
deriving DecidableEq, Repr

/-- Outcome of the Unpaywall HTTP lookup: a thrown fetch error, a
non-ok response, or an ok JSON response carrying the nullable
url of the best open-access pdf location. -/
inductive UnpaywallHTTP where
  | fetchError
  | notOk
  | ok (urlForPdf : Option (List Char))
deriving DecidableEq, Repr

/-- Outcome of the direct byte-stream fetch of downloadDirectPDF: a
thrown or non-ok failure with its message, or a body of n bytes. -/
inductive FetchRes where
  | failed (msg : List Char)
  | okBytes (n : Nat)
deriving DecidableEq, Repr

/-- The I/O outcomes one retrievePDF request can observe, supplied
explicitly: size of an existing file at the output path if any, the
Unpaywall lookup outcome, the direct-download outcome, and the result
the browser-driving retrieveViaLibrary would produce. -/
structure RetrieverWorld where
  cacheFileSize : Option Nat
  unpaywallHTTP : UnpaywallHTTP
  directFetch : FetchRes
  libraryResult : JsResult
deriving DecidableEq, Repr

/-- Model of tryUnpaywall: skip without the configured email, treat
fetch errors and non-ok responses as null, and return the best
open-access pdf url only when that field is truthy. -/
def tryUnpaywall (cfg : RetrieverConfig) (w : RetrieverWorld) : Option (List Char) :=
  if !jsTruthy cfg.unpaywallEmail then none
  else
    match w.unpaywallHTTP with
    | .fetchError => none
    | .notOk => none
    | .ok u => if jsTruthy u then u else none

/-- Model of downloadDirectPDF: on an ok fetch the whole body is written
to the output path and success is declared, with no size validation; a
thrown or non-ok fetch yields a failure result. The second component is
the size of the file written, when one is. -/
def downloadDirectPDF (w : RetrieverWorld) (outputPath : List Char) : JsResult × Option Nat :=
  match w.directFetch with
  | .failed msg => ({ success := false, error := some msg }, none)
  | .okBytes n =>
    ({ success := true, path := some outputPath, source := some (("direct").toList) }, some n)

/-- Which strategies a retrievePDF run invoked. -/
structure Trace where
  calledUnpaywall : Bool
  calledDirectDownload : Bool
  calledLibrary : Bool
deriving DecidableEq, Repr

/-- Strategy 2 of retrievePDF, lines 156 to 167 of the source: with both
credentials truthy, hand over to retrieveViaLibrary, otherwise fail
with the missing-credentials error and no browser launch. -/
def retrieveStrategy2 (cfg : RetrieverConfig) (w : RetrieverWorld) (doi : List Char)
    (triedDirect : Bool) : JsResult × Trace :=
  if jsTruthy cfg.username && jsTruthy cfg.password then
    (w.libraryResult,
     { calledUnpaywall := true, calledDirectDownload := triedDirect, calledLibrary := true })
  else
    ({ success := false, error := some (("Library credentials not configured").toList), doi := some doi },
     { calledUnpaywall := true, calledDirectDownload := triedDirect, calledLibrary := false })

/-- Model of retrievePDF: existence of the output path short-circuits to
a cached success; otherwise Unpaywall is consulted, a hit is downloaded
directly and returned on success with the source renamed to unpaywall;
otherwise strategy 2 decides between the library driver and the
missing-credentials failure. -/
def retrievePDF (cfg : RetrieverConfig) (w : RetrieverWorld) (doi : List Char)
    (outputPath : List Char) : JsResult × Trace :=
  if w.cacheFileSize.isSome then
    ({ success := true, path := some outputPath, source := some (("cached").toList),
       alreadyExists := true },
     { calledUnpaywall := false, calledDirectDownload := false, calledLibrary := false })
  else
    match tryUnpaywall cfg w with
    | some _url =>
      let dl := (downloadDirectPDF w outputPath).1
      if dl.success then
        ({ dl with source := some (("unpaywall").toList) },
         { calledUnpaywall := true, calledDirectDownload := true, calledLibrary := false })
      else retrieveStrategy2 cfg w doi true
    | none => retrieveStrategy2 cfg w doi false

/-! Login-page classification of _handleLibraryLogin in
src/pdf-retriever/library-retriever.js. -/

/-- The page the driver inspects when deciding whether to authenticate:
its url and whether its DOM contains a password input. The source reads
only the url before classifying; the DOM flag is carried so that its
being ignored is expressible. -/
structure DriverPage where
  url : List Char
  hasPasswordInput : Bool
deriving DecidableEq, Repr

/-- Model of the isLoginPage test of _handleLibraryLogin: substring
checks on the current url only. -/
def isLoginPage (url : List Char) : Bool :=
  jsIncludes url (("adfs").toList) || jsIncludes url (("login").toList) ||
  jsIncludes url (("authentication").toList) || jsIncludes url (("shibboleth").toList) ||
  jsIncludes url (("idp").toList) || jsIncludes url (("ezproxy").toList)

/-- Observable decision of _handleLibraryLogin. -/
inductive LoginAction where
  | noLoginDetected
  | authAttempted
deriving DecidableEq, Repr

/-- Model of the classification step of _handleLibraryLogin: when the
url matches no login pattern the function returns at once and no
authentication is attempted; otherwise the selector-driven
authentication sequence runs. The claims under verification concern
only this classification decision, so the fill-and-submit sequence
behind the authAttempted branch is not unfolded further. -/
def handleLibraryLogin (page : DriverPage) : LoginAction :=
  if isLoginPage page.url then .authAttempted else .noLoginDetected

/-! Cache gate and download of downloadPDF in
src/covidence-downloader/covidence-pdf-downloader.js. -/

/-- One HTTP response the node download request can observe. -/
inductive HttpGet where
  | redirect (location : List Char)
  | badStatus (code : Nat)
  | okStream
  | netError (msg : List Char)
  | timedOut
deriving DecidableEq, Repr

/-- Terminal outcome of downloadPDF: the skip of an existing file, a
saved file, or the rejection reasons of the promise. -/
inductive DlResult where
  | skippedExisting
  | saved
  | httpError (code : Nat)
  | netFailed (msg : List Char)
  | timedOut
  | noResponse
deriving DecidableEq, Repr

/-- The request part of downloadPDF, one list entry per HTTP response
along the redirect chain; the redirect re-entry skips the existence
gate because the file created for the previous response was just
unlinked. An exhausted response list marks an unanswered request. -/
def downloadPDFRequest : List HttpGet → DlResult
  | [] => .noResponse
  | r :: rest =>
    match r with
    | .redirect _loc => downloadPDFRequest rest
    | .badStatus code => .httpError code
    | .okStream => .saved
    | .netError m => .netFailed m
    | .timedOut => .timedOut

/-- Model of downloadPDF, lines 104 to 175 of the source: an existing
file of positive size is skipped; an existing empty file is deleted and
the download proceeds; otherwise the download proceeds directly. The
Bool records whether an existing empty file was deleted. -/
def downloadPDF (responses : List HttpGet) (existingSize : Option Nat) : DlResult × Bool :=
  match existingSize with
  | some n => if n > 0 then (.skippedExisting, false) else (downloadPDFRequest responses, true)
  | none => (downloadPDFRequest responses, false)

/-! Crawl state of downloadAllPDFs in
src/covidence-downloader/covidence-pdf-downloader.js. -/

/-- The mutable crawl bookkeeping of downloadAllPDFs: the set of stable
study identifiers already handled and the last list index handled, the
latter starting at minus one. -/
structure CrawlState where
  processedIds : List (List Char)
  lastProcessedIndex : Int
deriving DecidableEq, Repr

/-- The per-item dedup gate of the inner loop, lines 587 to 593 of the
source, over explicitly indexed items: an identifier already in the
processed set advances the index and is skipped, a new identifier is
added, advances the index, and is processed. The second component
lists the identifiers actually processed, in order. -/
def processItems (st : CrawlState) : List (Nat × List Char) → CrawlState × List (List Char)
  | [] => (st, [])
  | (i, sid) :: rest =>
    if sid ∈ st.processedIds then
      processItems { st with lastProcessedIndex := (i : Int) } rest
    else
      let res := processItems
        { processedIds := sid :: st.processedIds, lastProcessedIndex := (i : Int) } rest
      (res.1, sid :: res.2)

/-- One batch of the outer loop: items are taken from position
lastProcessedIndex plus one onward of the page list of this batch. -/
def processBatch (st : CrawlState) (items : List (List Char)) : CrawlState × List (List Char) :=
  processItems st (items.enum.drop (st.lastProcessedIndex + 1).toNat)

/-- The outer loop of downloadAllPDFs over the successive page lists it
sees, threading the crawl state and concatenating the processing
events. -/
def runBatches (st : CrawlState) : List (List (List Char)) → CrawlState × List (List Char)
  | [] => (st, [])
  | b :: bs =>
    let r1 := processBatch st b
    let r2 := runBatches r1.1 bs
    (r2.1, r1.2 ++ r2.2)

/-! Resume-point location of loadUntilStudyFound and the resume marking
of downloadAllPDFs. -/

/-- The study list page as loadUntilStudyFound observes it after a given
number of load-more clicks: the loaded study identifiers, whether a
load-more button remains, and whether clicking it succeeds. -/
structure ListPage where
  ids : List (List Char)
  hasLoadMore : Bool
  clickOk : Bool
deriving Repr

/-- The containment test of the resume search: some loaded study
identifier has the target as a substring. -/
def pageHasStudy (p : ListPage) (target : List Char) : Bool :=
  p.ids.any (fun sid => jsIncludes sid target)

/-- The while loop of loadUntilStudyFound with its safety limit of 200
clicks: remaining fuel plus clicks performed always equals 200. Stops
with true when the target is on the page, with false when no load-more
button remains, a click fails, or the limit is reached. -/
def loadLoop (pages : Nat → ListPage) (target : List Char) : Nat → Nat → Bool × Nat
  | 0, clicks => (false, clicks)
  | rem + 1, clicks =>
    let p := pages clicks
    if pageHasStudy p target then (true, clicks)
    else if !p.hasLoadMore then (false, clicks)
    else if !p.clickOk then (false, clicks + 1)
    else loadLoop pages target rem (clicks + 1)

/-- Model of loadUntilStudyFound, lines 239 to 303 of the source. -/
def loadUntilStudyFound (pages : Nat → ListPage) (target : List Char) : Bool × Nat :=
  loadLoop pages target 200 0

/-- Model of the resume marking of downloadAllPDFs, lines 470 to 499:
locate the first loaded identifier containing the target, mark every
identifier before it processed and set the last processed index to the
position just before it; none when the target is not on the page. -/
def resumeMark (ids : List (List Char)) (target : List Char) : Option CrawlState :=
  match ids.findIdx? (fun sid => jsIncludes sid target) with
  | some i => some { processedIds := ids.take i, lastProcessedIndex := (i : Int) - 1 }
  | none => none

/-! Helper lemmas. -/

theorem mem_dropTrailing {p : Char → Bool} {c : Char} {l : List Char}
    (h : c ∈ dropTrailing p l) : c ∈ l := by
  unfold dropTrailing at h
  rw [List.mem_reverse] at h
  have h2 := (List.dropWhile_suffix p).subset h
  rwa [List.mem_reverse] at h2

theorem mem_sanitizeFilename {c : Char} {l : List Char}
    (h : c ∈ sanitizeFilename l) : c ∈ l := by
  simp only [sanitizeFilename] at h
  replace h := List.take_subset _ _ h
  replace h := mem_dropTrailing h
  split at h
  · exact absurd h (List.not_mem_nil c)
  · split at h
    · exact absurd h (List.not_mem_nil c)
    · exact List.mem_of_mem_filter (List.mem_of_mem_filter h)

/-! Claim theorems. -/

/-- C8: DOI normalization strips the resolver URL: on the RIS field value
https resolver form of the Lancet DOI, extractDOI returns exactly the
bare DOI. -/
theorem claim8_doi_normalization :
    extractDOI (("https://doi.org/10.1016/j.lancet.2023.01.001").toList) =
      some (("10.1016/j.lancet.2023.01.001").toList) := by decide

/-- C5 counterexample: a page whose DOM contains a password input but
whose url matches none of the login url patterns is classified as not
needing login, and no authentication is attempted, refuting the claim
that the DOM signal alone suffices. -/
theorem claim5_counterexample :
    handleLibraryLogin { url := ("https://publisher.example.com/article/42").toList,
                         hasPasswordInput := true } = .noLoginDetected ∧
    isLoginPage (("https://publisher.example.com/article/42").toList) = false := by
  exact ⟨by decide, by decide⟩

/-- C5 amended: the driver classifies a page as a login challenge using
url-pattern heuristics only; the decision is independent of whether the
DOM contains a password input, and authentication is attempted exactly
when the url contains one of the six login path fragments. -/
theorem claim5_amended (url : List Char) (d1 d2 : Bool) :
    handleLibraryLogin { url := url, hasPasswordInput := d1 } =
      handleLibraryLogin { url := url, hasPasswordInput := d2 } ∧
    (handleLibraryLogin { url := url, hasPasswordInput := d1 } = LoginAction.authAttempted ↔
      (jsIncludes url (("adfs").toList) = true ∨ jsIncludes url (("login").toList) = true ∨
       jsIncludes url (("authentication").toList) = true ∨
       jsIncludes url (("shibboleth").toList) = true ∨
       jsIncludes url (("idp").toList) = true ∨ jsIncludes url (("ezproxy").toList) = true)) := by
  constructor
  · rfl
  · unfold handleLibraryLogin isLoginPage
    dsimp only
    split
    · next hcond =>
      simp only [Bool.or_eq_true] at hcond
      exact iff_of_true rfl (by tauto)
    · next hcond =>
      simp only [Bool.or_eq_true] at hcond
      refine iff_of_false (by simp) ?_
      intro hor
      exact hcond (by tauto)

/-- C2 counterexample: a record whose target file exists with size zero
is reported by retrievePDF as a cached success, with no strategy run,
refuting the claim that the zero-byte file is treated as a miss and
deleted before the strategies run. -/
theorem claim2_counterexample :
    retrievePDF { unpaywallEmail := none, username := none, password := none }
      { cacheFileSize := some 0, unpaywallHTTP := .notOk, directFetch := .failed [],
        libraryResult := { success := false } } (("10.1/x").toList) (("out.pdf").toList)
    = ({ success := true, path := some (("out.pdf").toList),
         source := some (("cached").toList), alreadyExists := true },
       { calledUnpaywall := false, calledDirectDownload := false, calledLibrary := false }) := by
  decide

/-- C2 amended: the zero-byte cache-miss treatment exists only in the
covidence downloadPDF, whose gate skips an existing file of positive
size, deletes an existing empty file and proceeds to download, and
proceeds without deletion when no file exists; the library retrievePDF
reports a cache hit for an existing target file of any size, including
zero, with no deletion and no strategy run. -/
theorem claim2_amended (responses : List HttpGet) (n : Nat) (cfg : RetrieverConfig)
    (u : UnpaywallHTTP) (d : FetchRes) (lr : JsResult) (doi outputPath : List Char) (sz : Nat) :
    downloadPDF responses (some (n + 1)) = (DlResult.skippedExisting, false) ∧
    downloadPDF responses (some 0) = (downloadPDFRequest responses, true) ∧
    downloadPDF responses none = (downloadPDFRequest responses, false) ∧
    retrievePDF cfg
      { cacheFileSize := some sz, unpaywallHTTP := u, directFetch := d, libraryResult := lr }
      doi outputPath
      = ({ success := true, path := some outputPath, source := some (("cached").toList),
           alreadyExists := true },
         { calledUnpaywall := false, calledDirectDownload := false, calledLibrary := false }) := by
  refine ⟨by simp [downloadPDF], rfl, rfl, ?_⟩
  simp [retrievePDF]

/-- C3 counterexample: an open-access download of only 10 bytes, far
below the 1000 byte threshold used elsewhere in the retriever, is
declared a success by downloadDirectPDF and returned by retrievePDF as
the unpaywall result without falling through to the institutional
strategy, refuting the claimed size validation. -/
theorem claim3_counterexample :
    downloadDirectPDF
      { cacheFileSize := none, unpaywallHTTP := .ok (some (("http://oa.example/x.pdf").toList)),
        directFetch := .okBytes 10, libraryResult := { success := false } } (("out.pdf").toList)
      = ({ success := true, path := some (("out.pdf").toList),
           source := some (("direct").toList) }, some 10) ∧
    (retrievePDF { unpaywallEmail := some (("a@b.c").toList), username := none, password := none }
      { cacheFileSize := none, unpaywallHTTP := .ok (some (("http://oa.example/x.pdf").toList)),
        directFetch := .okBytes 10, libraryResult := { success := false } }
      (("10.1/x").toList) (("out.pdf").toList)).1.source = some (("unpaywall").toList) ∧
    (retrievePDF { unpaywallEmail := some (("a@b.c").toList), username := none, password := none }
      { cacheFileSize := none, unpaywallHTTP := .ok (some (("http://oa.example/x.pdf").toList)),
        directFetch := .okBytes 10, libraryResult := { success := false } }
      (("10.1/x").toList) (("out.pdf").toList)).2.calledLibrary = false := by
  exact ⟨by decide, by decide, by decide⟩

/-- C3 amended: downloadDirectPDF performs no size validation at all: it
declares success for an ok fetch of any byte count, and only a thrown
or non-ok fetch yields a failure result, in which case retrievePDF
falls through to the institutional strategy. -/
theorem claim3_amended (n : Nat) (msg : List Char) (u : UnpaywallHTTP) (cs : Option Nat)
    (lr : JsResult) (p doi e us ps uu : List Char) :
    (downloadDirectPDF
        { cacheFileSize := cs, unpaywallHTTP := u, directFetch := .okBytes n,
          libraryResult := lr } p).1
      = { success := true, path := some p, source := some (("direct").toList) } ∧
    (downloadDirectPDF
        { cacheFileSize := cs, unpaywallHTTP := u, directFetch := .failed msg,
          libraryResult := lr } p).1
      = { success := false, error := some msg } ∧
    retrievePDF
      { unpaywallEmail := some ('e' :: e), username := some ('u' :: us),
        password := some ('p' :: ps) }
      { cacheFileSize := none, unpaywallHTTP := .ok (some ('h' :: uu)),
        directFetch := .failed msg, libraryResult := lr } doi p
      = (lr, { calledUnpaywall := true, calledDirectDownload := true, calledLibrary := true }) := by
  refine ⟨rfl, rfl, ?_⟩
  simp [retrievePDF, tryUnpaywall, jsTruthy, downloadDirectPDF, retrieveStrategy2]

/-- C10: the filename retrievePDF derives from any DOI, slashes replaced
by underscores then sanitized with the pdf extension appended, contains
no forward slash and no backslash, so the artifact path stays a direct
child of the output directory. -/
theorem claim10_filename_confinement (doi : List Char) :
    (filenameForDOI doi).all (fun c => !(c = '/' || c = '\\')) = true := by
  rw [List.all_eq_true]
  intro c hc
  unfold filenameForDOI at hc
  rcases List.mem_append.mp hc with h | h
  · have h2 := mem_sanitizeFilename h
    obtain ⟨a, _, rfl⟩ := List.mem_map.mp h2
    by_cases ha : a = '/' || a = '\\'
    · simp [ha]
    · simp only [Bool.or_eq_true] at ha
      push_neg at ha
      simp [ha.1, ha.2]
  · simp only [String.toList] at h
    fin_cases h <;> decide

/-- C1: the strategies run in the fixed order cache, open access,
institutional, and the chain stops at the first that yields an
artifact: an existing cached file returns a cached success with neither
tryUnpaywall nor the library driver invoked; on a cache miss an
open-access hit whose direct download succeeds is returned as the
unpaywall success without invoking the library driver; and only when
both earlier strategies yield nothing does the chain hand over to the
library driver, given truthy credentials. -/
theorem claim1_strategy_order (cfg : RetrieverConfig) (w : RetrieverWorld)
    (doi outputPath : List Char) :
    (∀ n, w.cacheFileSize = some n →
      retrievePDF cfg w doi outputPath =
        ({ success := true, path := some outputPath, source := some (("cached").toList),
           alreadyExists := true },
         { calledUnpaywall := false, calledDirectDownload := false, calledLibrary := false })) ∧
    (w.cacheFileSize = none → ∀ url, tryUnpaywall cfg w = some url →
      (downloadDirectPDF w outputPath).1.success = true →
      retrievePDF cfg w doi outputPath =
        ({ (downloadDirectPDF w outputPath).1 with source := some (("unpaywall").toList) },
         { calledUnpaywall := true, calledDirectDownload := true, calledLibrary := false })) ∧
    (w.cacheFileSize = none →
      (tryUnpaywall cfg w = none ∨ (downloadDirectPDF w outputPath).1.success = false) →
      jsTruthy cfg.username = true → jsTruthy cfg.password = true →
      retrievePDF cfg w doi outputPath =
        (w.libraryResult,
         { calledUnpaywall := true,
           calledDirectDownload := (tryUnpaywall cfg w).isSome, calledLibrary := true })) := by
  refine ⟨?_, ?_, ?_⟩
  · intro n hn
    simp [retrievePDF, hn]
  · intro hc url hu hdl
    simp [retrievePDF, hc, hu, hdl]
  · intro hc hmiss hu hp
    rcases hmiss with hnone | hfail
    · simp [retrievePDF, hc, hnone, retrieveStrategy2, hu, hp]
    · cases htu : tryUnpaywall cfg w with
      | none => simp [retrievePDF, hc, htu, retrieveStrategy2, hu, hp]
      | some url => simp [retrievePDF, hc, htu, hfail, retrieveStrategy2, hu, hp]

/-- C1 witness: the three branches of the strategy-order theorem applied
at concrete worlds: a cached hit, an open-access success, and a double
miss with credentials. -/
theorem claim1_witness :
    retrievePDF { unpaywallEmail := none, username := none, password := none }
      { cacheFileSize := some 2048, unpaywallHTTP := .notOk, directFetch := .failed [],
        libraryResult := { success := false } } (("10.1/a").toList) (("a.pdf").toList)
      = ({ success := true, path := some (("a.pdf").toList),
           source := some (("cached").toList), alreadyExists := true },
         { calledUnpaywall := false, calledDirectDownload := false, calledLibrary := false }) ∧
    retrievePDF { unpaywallEmail := some (("a@b.c").toList), username := none, password := none }
      { cacheFileSize := none, unpaywallHTTP := .ok (some (("http://oa/x.pdf").toList)),
        directFetch := .okBytes 4096, libraryResult := { success := false } }
      (("10.1/a").toList) (("a.pdf").toList)
      = ({ success := true, path := some (("a.pdf").toList),
           source := some (("unpaywall").toList) },
         { calledUnpaywall := true, calledDirectDownload := true, calledLibrary := false }) ∧
    retrievePDF
      { unpaywallEmail := none, username := some (("u").toList),
        password := some (("pw").toList) }
      { cacheFileSize := none, unpaywallHTTP := .notOk, directFetch := .failed [],
        libraryResult :=
          { success := true, path := some (("a.pdf").toList),
            source := some (("library-ezproxy").toList) } }
      (("10.1/a").toList) (("a.pdf").toList)
      = ({ success := true, path := some (("a.pdf").toList),
           source := some (("library-ezproxy").toList) },
         { calledUnpaywall := true, calledDirectDownload := false, calledLibrary := true }) := by
  refine ⟨?_, ?_, ?_⟩
  · exact (claim1_strategy_order _ _ _ _).1 2048 rfl
  · have h := (claim1_strategy_order
      { unpaywallEmail := some (("a@b.c").toList), username := none, password := none }
      { cacheFileSize := none, unpaywallHTTP := .ok (some (("http://oa/x.pdf").toList)),
        directFetch := .okBytes 4096, libraryResult := { success := false } }
      (("10.1/a").toList) (("a.pdf").toList)).2.1 rfl (("http://oa/x.pdf").toList)
      (by decide) (by decide)
    simpa using h
  · have h := (claim1_strategy_order
      { unpaywallEmail := none, username := some (("u").toList),
        password := some (("pw").toList) }
      { cacheFileSize := none, unpaywallHTTP := .notOk, directFetch := .failed [],
        libraryResult :=
          { success := true, path := some (("a.pdf").toList),
            source := some (("library-ezproxy").toList) } }
      (("10.1/a").toList) (("a.pdf").toList)).2.2 rfl (Or.inl (by decide))
      (by decide) (by decide)
    simpa using h

/-- C4: with no cached file and no open-access result, unset
institutional credentials mean the library driver is never invoked and
retrievePDF fails with the missing-credentials configuration error. -/
theorem claim4_missing_credentials (cfg : RetrieverConfig) (w : RetrieverWorld)
    (doi outputPath : List Char)
    (hc : w.cacheFileSize = none)
    (hcred : cfg.username = none ∨ cfg.password = none)
    (hoa : tryUnpaywall cfg w = none ∨ (downloadDirectPDF w outputPath).1.success = false) :
    (retrievePDF cfg w doi outputPath).2.calledLibrary = false ∧
    (retrievePDF cfg w doi outputPath).1.success = false ∧
    (retrievePDF cfg w doi outputPath).1.error
      = some (("Library credentials not configured").toList) := by
  have hcredF : (jsTruthy cfg.username && jsTruthy cfg.password) = false := by
    rcases hcred with h | h <;> simp [h, jsTruthy]
  rcases hoa with hnone | hfail
  · simp [retrievePDF, hc, hnone, retrieveStrategy2, hcredF]
  · cases htu : tryUnpaywall cfg w with
    | none => simp [retrievePDF, hc, htu, retrieveStrategy2, hcredF]
    | some url => simp [retrievePDF, hc, htu, hfail, retrieveStrategy2, hcredF]

/-- C4 witness: the missing-credentials theorem applied at a concrete
world with no cached file, a missed open-access lookup and no username. -/
theorem claim4_witness :
    (retrievePDF
      { unpaywallEmail := some (("a@b.c").toList), username := none,
        password := some (("pw").toList) }
      { cacheFileSize := none, unpaywallHTTP := .notOk, directFetch := .failed [],
        libraryResult := { success := false } }
      (("10.1/a").toList) (("a.pdf").toList)).2.calledLibrary = false ∧
    (retrievePDF
      { unpaywallEmail := some (("a@b.c").toList), username := none,
        password := some (("pw").toList) }
      { cacheFileSize := none, unpaywallHTTP := .notOk, directFetch := .failed [],
        libraryResult := { success := false } }
      (("10.1/a").toList) (("a.pdf").toList)).1.success = false ∧
    (retrievePDF
      { unpaywallEmail := some (("a@b.c").toList), username := none,
        password := some (("pw").toList) }
      { cacheFileSize := none, unpaywallHTTP := .notOk, directFetch := .failed [],
        libraryResult := { success := false } }
      (("10.1/a").toList) (("a.pdf").toList)).1.error
      = some (("Library credentials not configured").toList) :=
  claim4_missing_credentials _ _ _ _ rfl (Or.inl rfl) (Or.inl (by decide))

theorem processItems_spec (l : List (Nat × List Char)) : ∀ st : CrawlState,
    (∀ x ∈ st.processedIds, x ∈ (processItems st l).1.processedIds) ∧
    (∀ e ∈ (processItems st l).2,
      e ∉ st.processedIds ∧ e ∈ (processItems st l).1.processedIds) ∧
    (processItems st l).2.Nodup := by
  induction l with
  | nil =>
    intro st
    simp [processItems]
  | cons p rest ih =>
    intro st
    obtain ⟨i, sid⟩ := p
    by_cases hmem : sid ∈ st.processedIds
    · have h := ih { st with lastProcessedIndex := (i : Int) }
      simp only [processItems, if_pos hmem]
      exact ⟨fun x hx => h.1 x hx, fun e he => h.2.1 e he, h.2.2⟩
    · have h := ih { processedIds := sid :: st.processedIds, lastProcessedIndex := (i : Int) }
      simp only [processItems, if_neg hmem]
      refine ⟨?_, ?_, ?_⟩
      · intro x hx
        exact h.1 x (List.mem_cons_of_mem _ hx)
      · intro e he
        rcases List.mem_cons.mp he with rfl | he2
        · exact ⟨hmem, h.1 e (List.mem_cons_self _ _)⟩
        · have h2 := h.2.1 e he2
          exact ⟨fun hc => h2.1 (List.mem_cons_of_mem _ hc), h2.2⟩
      · refine List.nodup_cons.mpr ⟨?_, h.2.2⟩
        intro hsid
        exact (h.2.1 sid hsid).1 (List.mem_cons_self _ _)

theorem processBatch_spec (st : CrawlState) (b : List (List Char)) :
    (∀ x ∈ st.processedIds, x ∈ (processBatch st b).1.processedIds) ∧
    (∀ e ∈ (processBatch st b).2,
      e ∉ st.processedIds ∧ e ∈ (processBatch st b).1.processedIds) ∧
    (processBatch st b).2.Nodup := by
  unfold processBatch
  exact processItems_spec _ st

theorem runBatches_spec (bs : List (List (List Char))) : ∀ st : CrawlState,
    (∀ x ∈ st.processedIds, x ∈ (runBatches st bs).1.processedIds) ∧
    (∀ e ∈ (runBatches st bs).2,
      e ∉ st.processedIds ∧ e ∈ (runBatches st bs).1.processedIds) ∧
    (runBatches st bs).2.Nodup := by
  induction bs with
  | nil =>
    intro st
    simp [runBatches]
  | cons b bs ih =>
    intro st
    have h1 := processBatch_spec st b
    have h2 := ih (processBatch st b).1
    simp only [runBatches]
    refine ⟨?_, ?_, ?_⟩
    · intro x hx
      exact h2.1 x (h1.1 x hx)
    · intro e he
      rcases List.mem_append.mp he with he1 | he2
      · have := h1.2.1 e he1
        exact ⟨this.1, h2.1 e this.2⟩
      · have := h2.2.1 e he2
        exact ⟨fun hc => this.1 (h1.1 e hc), this.2⟩
    · refine List.nodup_append.mpr ⟨h1.2.2, h2.2.2, ?_⟩
      intro a ha1 ha2
      exact (h2.2.1 a ha2).1 (h1.2.1 a ha1).2

/-- C6: dedup by stable identity in downloadAllPDFs: over any sequence
of page batches the list of processed identifiers has no duplicate, an
identifier already in the processed set at the start of the run is
never processed, and an item whose identifier is already processed is
skipped at its current position while lastProcessedIndex still advances
to that position. -/
theorem claim6_dedup_by_stable_identity (st0 : CrawlState)
    (batches : List (List (List Char))) :
    (runBatches st0 batches).2.Nodup ∧
    (∀ sid, sid ∈ st0.processedIds → sid ∉ (runBatches st0 batches).2) ∧
    (∀ (st : CrawlState) (i : Nat) (sid : List Char) (rest : List (Nat × List Char)),
      sid ∈ st.processedIds →
      processItems st ((i, sid) :: rest)
        = processItems { st with lastProcessedIndex := (i : Int) } rest) := by
  refine ⟨(runBatches_spec batches st0).2.2, ?_, ?_⟩
  · intro sid hs hin
    exact ((runBatches_spec batches st0).2.1 sid hin).1 hs
  · intro st i sid rest hmem
    simp [processItems, if_pos hmem]

/-- C6 witness: the dedup theorem applied to a run whose initial
processed set holds one identifier that reappears in both batches, and
to a single-item skip at position three. -/
theorem claim6_witness :
    (runBatches { processedIds := [("#A").toList], lastProcessedIndex := -1 }
      [[("#A").toList, ("#B").toList],
       [("#A").toList, ("#B").toList, ("#C").toList]]).2.Nodup ∧
    ("#A").toList ∉ (runBatches { processedIds := [("#A").toList], lastProcessedIndex := -1 }
      [[("#A").toList, ("#B").toList],
       [("#A").toList, ("#B").toList, ("#C").toList]]).2 ∧
    processItems { processedIds := [("#A").toList], lastProcessedIndex := -1 }
      [(3, ("#A").toList)]
      = ({ processedIds := [("#A").toList], lastProcessedIndex := 3 }, []) := by
  refine ⟨(claim6_dedup_by_stable_identity _ _).1,
    (claim6_dedup_by_stable_identity _ _).2.1 _ (by decide), ?_⟩
  have h := (claim6_dedup_by_stable_identity
    { processedIds := [("#A").toList], lastProcessedIndex := -1 } []).2.2
    { processedIds := [("#A").toList], lastProcessedIndex := -1 } 3 (("#A").toList) []
    (by decide)
  exact h.trans (by decide)

theorem loadLoop_spec (pages : Nat → ListPage) (target : List Char) :
    ∀ (rem clicks : Nat),
      (loadLoop pages target rem clicks).2 ≤ clicks + rem ∧
      ((loadLoop pages target rem clicks).1 = true →
        pageHasStudy (pages (loadLoop pages target rem clicks).2) target = true) ∧
      ((loadLoop pages target rem clicks).1 = false →
        (loadLoop pages target rem clicks).2 = clicks + rem ∨
        (pages (loadLoop pages target rem clicks).2).hasLoadMore = false ∨
        (pages ((loadLoop pages target rem clicks).2 - 1)).clickOk = false) := by
  intro rem
  induction rem with
  | zero =>
    intro clicks
    simp [loadLoop]
  | succ n ih =>
    intro clicks
    have hstep : loadLoop pages target (n + 1) clicks =
        (if pageHasStudy (pages clicks) target then (true, clicks)
         else if !(pages clicks).hasLoadMore then (false, clicks)
         else if !(pages clicks).clickOk then (false, clicks + 1)
         else loadLoop pages target n (clicks + 1)) := rfl
    cases hv : pageHasStudy (pages clicks) target with
    | true =>
      rw [hstep, if_pos hv]
      exact ⟨Nat.le_add_right _ _, fun _ => hv, fun hf => Bool.noConfusion hf⟩
    | false =>
      rw [hstep, if_neg (by simp [hv])]
      cases hm : (pages clicks).hasLoadMore with
      | false =>
        rw [if_pos (by simp [hm])]
        exact ⟨Nat.le_add_right _ _, fun hf => Bool.noConfusion hf,
          fun _ => Or.inr (Or.inl hm)⟩
      | true =>
        rw [if_neg (by simp [hm])]
        cases hk : (pages clicks).clickOk with
        | false =>
          rw [if_pos (by simp [hk])]
          refine ⟨by omega, fun hf => Bool.noConfusion hf, fun _ => Or.inr (Or.inr ?_)⟩
          simpa using hk
        | true =>
          rw [if_neg (by simp [hk])]
          obtain ⟨hb1, hb2, hb3⟩ := ih (clicks + 1)
          refine ⟨by omega, hb2, fun hf => ?_⟩
          rcases hb3 hf with ha | hb | hc
          · exact Or.inl (by omega)
          · exact Or.inr (Or.inl hb)
          · exact Or.inr (Or.inr hc)

/-- C7: the resume search of loadUntilStudyFound performs at most the
safety limit of 200 load-more iterations; on a true result the target
identifier is contained in an identifier of the final page; a false
result happens only at the safety limit, when no load-more control
remains, or when a click fails; and on success of the resume marking
every identifier positioned before the target index is added to the
processed set while the last processed index becomes the index just
before the target. -/
theorem claim7_resume_location (pages : Nat → ListPage) (target : List Char) :
    (loadUntilStudyFound pages target).2 ≤ 200 ∧
    ((loadUntilStudyFound pages target).1 = true →
      pageHasStudy (pages (loadUntilStudyFound pages target).2) target = true) ∧
    ((loadUntilStudyFound pages target).1 = false →
      (loadUntilStudyFound pages target).2 = 200 ∨
      (pages (loadUntilStudyFound pages target).2).hasLoadMore = false ∨
      (pages ((loadUntilStudyFound pages target).2 - 1)).clickOk = false) ∧
    (∀ (ids : List (List Char)) (i : Nat),
      ids.findIdx? (fun sid => jsIncludes sid target) = some i →
      resumeMark ids target
        = some { processedIds := ids.take i, lastProcessedIndex := (i : Int) - 1 } ∧
      (∀ j, j < i → ∀ sid, ids[j]? = some sid → sid ∈ ids.take i)) := by
  have h := loadLoop_spec pages target 200 0
  refine ⟨by simpa [loadUntilStudyFound] using h.1,
    by simpa [loadUntilStudyFound] using h.2.1,
    by simpa [loadUntilStudyFound] using h.2.2, ?_⟩
  intro ids i hfind
  refine ⟨by simp [resumeMark, hfind], ?_⟩
  intro j hj sid hsid
  have hj2 : (ids.take i)[j]? = some sid := by
    rw [List.getElem?_take, if_pos hj]
    exact hsid
  exact List.getElem?_mem hj2

/-- C7 witness: the resume theorem applied to a page sequence whose
second load holds the target, and to the marking of the study list in
which the target sits at index one. -/
theorem claim7_witness :
    pageHasStudy
      ((fun n => if n = 0 then
          ({ ids := [("#1").toList], hasLoadMore := true, clickOk := true } : ListPage)
        else
          { ids := [("#1").toList, ("#40132").toList], hasLoadMore := false, clickOk := true })
        (loadUntilStudyFound
          (fun n => if n = 0 then
              ({ ids := [("#1").toList], hasLoadMore := true, clickOk := true } : ListPage)
            else
              { ids := [("#1").toList, ("#40132").toList], hasLoadMore := false,
                clickOk := true })
          (("#40132").toList)).2)
      (("#40132").toList) = true ∧
    resumeMark [("#1").toList, ("#40132").toList] (("#40132").toList)
      = some { processedIds := [("#1").toList], lastProcessedIndex := 0 } ∧
    ("#1").toList ∈ [("#1").toList, ("#40132").toList].take 1 := by
  have h := claim7_resume_location
    (fun n => if n = 0 then
        ({ ids := [("#1").toList], hasLoadMore := true, clickOk := true } : ListPage)
      else
        { ids := [("#1").toList, ("#40132").toList], hasLoadMore := false, clickOk := true })
    (("#40132").toList)
  refine ⟨h.2.1 (by decide), ?_, ?_⟩
  · have h4 := (h.2.2.2 [("#1").toList, ("#40132").toList] 1 (by decide)).1
    exact h4.trans (by decide)
  · exact (h.2.2.2 [("#1").toList, ("#40132").toList] 1 (by decide)).2 0 (by decide)
      (("#1").toList) (by decide)

theorem noLead_append {p : Char → Bool} {m t : List Char}
    (h : (m ++ t).dropWhile p = m ++ t) : m.dropWhile p = m := by
  cases m with
  | nil => rfl
  | cons c m2 =>
    rw [List.cons_append, List.dropWhile_cons] at h
    by_cases hc : p c = true
    · rw [if_pos hc] at h
      have hlen := congrArg List.length h
      rw [List.length_cons] at hlen
      have hle := (List.dropWhile_suffix (l := m2 ++ t) p).length_le
      omega
    · rw [List.dropWhile_cons, if_neg hc]

theorem noTrail_of_suffix {p : Char → Bool} {v l : List Char} (hs : v <:+ l)
    (h : l.reverse.dropWhile p = l.reverse) : v.reverse.dropWhile p = v.reverse := by
  obtain ⟨t, ht⟩ := hs
  subst ht
  rw [List.reverse_append] at h
  exact noLead_append h

theorem trim_eq_self {l : List Char} (h1 : l.dropWhile jsWs = l)
    (h2 : l.reverse.dropWhile jsWs = l.reverse) : trimChars l = l := by
  unfold trimChars dropTrailing
  rw [h1, h2, List.reverse_reverse]

theorem trimChars_noLead (l : List Char) :
    (trimChars l).dropWhile jsWs = trimChars l := by
  unfold trimChars dropTrailing
  have hmno : (l.dropWhile jsWs).dropWhile jsWs = l.dropWhile jsWs :=
    List.dropWhile_idempotent _ _
  obtain ⟨s, hs⟩ := List.dropWhile_suffix (l := (l.dropWhile jsWs).reverse) jsWs
  have hdec : ((l.dropWhile jsWs).reverse.dropWhile jsWs).reverse ++ s.reverse
      = l.dropWhile jsWs := by
    have h2 := congrArg List.reverse hs
    rwa [List.reverse_append, List.reverse_reverse] at h2
  exact noLead_append (t := s.reverse) (by rw [hdec]; exact hmno)

theorem trimChars_noTrail (l : List Char) :
    (trimChars l).reverse.dropWhile jsWs = (trimChars l).reverse := by
  unfold trimChars dropTrailing
  rw [List.reverse_reverse]
  exact List.dropWhile_idempotent _ _

theorem trimChars_idem (l : List Char) : trimChars (trimChars l) = trimChars l :=
  trim_eq_self (trimChars_noLead l) (trimChars_noTrail l)

theorem noTrail_of_trim_eq {l : List Char} (h : trimChars l = l) :
    l.reverse.dropWhile jsWs = l.reverse := by
  have h2 := trimChars_noTrail l
  rw [h] at h2
  exact h2

theorem parseRISLine_value_trim {l tag v : List Char}
    (hl : trimChars l = l) (h : parseRISLine l = some (tag, v)) :
    trimChars v = v := by
  unfold parseRISLine at h
  split at h
  · next c1 c2 rest =>
    split at h
    · split at h
      · exact absurd h (by simp)
      · split at h
        · next rest2 heq =>
          have hv : rest2.dropWhile jsWs = v := by
            injection h with h3
            injection h3 with h4 h5
          have hlead : v.dropWhile jsWs = v := by
            rw [← hv]
            exact List.dropWhile_idempotent _ _
          have hsuf : v <:+ (c1 :: c2 :: rest) := by
            have s1 : v <:+ rest2 := hv ▸ List.dropWhile_suffix jsWs
            have s2 : rest2 <:+ '-' :: rest2 := List.suffix_cons _ _
            have s3 : ('-' :: rest2) <:+ rest := heq ▸ List.dropWhile_suffix jsWs
            have s4 : rest <:+ c2 :: rest := List.suffix_cons _ _
            have s5 : (c2 :: rest) <:+ c1 :: c2 :: rest := List.suffix_cons _ _
            exact (((s1.trans s2).trans s3).trans s4).trans s5
          have htr : v.reverse.dropWhile jsWs = v.reverse :=
            noTrail_of_suffix hsuf (noTrail_of_trim_eq hl)
          exact trim_eq_self hlead htr
        · exact absurd h (by simp)
    · exact absurd h (by simp)
  · exact absurd h (by simp)

theorem cleanAuthorsStep_fields (r : Reference) :
    (cleanAuthorsStep r).doi = r.doi ∧ (cleanAuthorsStep r).pmid = r.pmid ∧
    (cleanAuthorsStep r).title = r.title := by
  unfold cleanAuthorsStep
  split <;> exact ⟨rfl, rfl, rfl⟩

theorem cleanTitleStep_fields (r : Reference) :
    (cleanTitleStep r).doi = r.doi ∧ (cleanTitleStep r).pmid = r.pmid ∧
    ((cleanTitleStep r).title = r.title ∨
      ∃ t, r.title = some t ∧ (cleanTitleStep r).title = some (trimChars t)) := by
  unfold cleanTitleStep
  split
  · next t heq =>
    split
    · exact ⟨rfl, rfl, Or.inr ⟨t, heq, rfl⟩⟩
    · exact ⟨rfl, rfl, Or.inl rfl⟩
  · exact ⟨rfl, rfl, Or.inl rfl⟩

theorem cleanYearStep_fields (r : Reference) :
    (cleanYearStep r).doi = r.doi ∧ (cleanYearStep r).pmid = r.pmid ∧
    (cleanYearStep r).title = r.title := by
  unfold cleanYearStep
  repeat' split
  all_goals exact ⟨rfl, rfl, rfl⟩

theorem cleanReference_fields (r : Reference) :
    (cleanReference r).doi = r.doi ∧ (cleanReference r).pmid = r.pmid ∧
    ((cleanReference r).title = r.title ∨
      ∃ t, r.title = some t ∧ (cleanReference r).title = some (trimChars t)) := by
  have h1 := cleanAuthorsStep_fields r
  have h2 := cleanTitleStep_fields (cleanAuthorsStep r)
  have h3 := cleanYearStep_fields (cleanTitleStep (cleanAuthorsStep r))
  unfold cleanReference
  refine ⟨h3.1.trans (h2.1.trans h1.1), h3.2.1.trans (h2.2.1.trans h1.2.1), ?_⟩
  rcases h2.2.2 with he | ⟨t, ht1, ht2⟩
  · exact Or.inl ((h3.2.2.trans he).trans h1.2.2)
  · exact Or.inr ⟨t, h1.2.2.symm.trans ht1, h3.2.2.trans ht2⟩

theorem isValid_clean {r : Reference} (hI : ∀ t, r.title = some t → trimChars t = t)
    (hv : isValidReference r = true) : isValidReference (cleanReference r) = true := by
  obtain ⟨hd, hp, ht⟩ := cleanReference_fields r
  unfold isValidReference at hv ⊢
  rw [hd, hp]
  rcases ht with he | ⟨t, ht1, ht2⟩
  · rw [he]; exact hv
  · rw [ht2, hI t ht1, ← ht1]
    exact hv

theorem applyField_title (f : RISField) (v : List Char) (r : Reference) :
    (applyField f v r).title = r.title ∨ (applyField f v r).title = some v := by
  cases f
  case faccession =>
    unfold applyField
    cases extractPMID v <;> exact Or.inl rfl
  all_goals unfold applyField
  all_goals first | exact Or.inl rfl | exact Or.inr rfl

theorem parseLoop_valid (lines : List (List Char)) : ∀ (cur : Reference) (acc : List Reference),
    (∀ t, cur.title = some t → trimChars t = t) →
    (∀ r ∈ acc, isValidReference r = true) →
    ∀ r ∈ parseLoop lines cur acc, isValidReference r = true := by
  induction lines with
  | nil =>
    intro cur acc hI hacc r hr
    unfold parseLoop at hr
    rcases List.mem_append.mp hr with h | h
    · exact hacc r h
    · split at h
      · next hval =>
        rcases List.mem_singleton.mp h with rfl
        exact isValid_clean hI hval
      · exact absurd h (List.not_mem_nil r)
  | cons line rest ih =>
    intro cur acc hI hacc r hr
    unfold parseLoop at hr
    dsimp only at hr
    split at hr
    · exact ih cur acc hI hacc r hr
    · split at hr
      · exact ih cur acc hI hacc r hr
      · next tag value heq =>
        split at hr
        · refine ih {} _ (fun t ht => Option.noConfusion ht) ?_ r hr
          intro r2 hr2
          rcases List.mem_append.mp hr2 with h | h
          · exact hacc r2 h
          · split at h
            · next hval =>
              rcases List.mem_singleton.mp h with rfl
              exact isValid_clean hI hval
            · exact absurd h (List.not_mem_nil r2)
        · split at hr
          · exact ih cur acc hI hacc r hr
          · next f hfm =>
            refine ih (applyField f value cur) acc ?_ hacc r hr
            intro t ht
            rcases applyField_title f value cur with he | he
            · exact hI t (he ▸ ht)
            · rw [he] at ht
              injection ht with ht2
              subst ht2
              exact parseRISLine_value_trim (trimChars_idem line) heq

/-- C9: reference-record intake invariant: every record in the list
returned by the RIS parse has a truthy title, doi or pmid; a record
with none of the three is never included in the output. -/
theorem claim9_intake_invariant (lines : List (List Char)) (r : Reference)
    (hr : r ∈ risParse lines) :
    jsTruthy r.title = true ∨ jsTruthy r.doi = true ∨ jsTruthy r.pmid = true := by
  have h := parseLoop_valid lines {} [] (fun t ht => Option.noConfusion ht)
    (fun r2 hr2 => absurd hr2 (List.not_mem_nil r2)) r hr
  unfold isValidReference at h
  simp only [Bool.or_eq_true] at h
  tauto

/-- C9 witness: the intake invariant applied to a two-line RIS input
whose single record carries only a title. -/
theorem claim9_witness :
    jsTruthy (Reference.title { title := some (("Stroke prevention").toList) }) = true ∨
    jsTruthy (Reference.doi { title := some (("Stroke prevention").toList) }) = true ∨
    jsTruthy (Reference.pmid { title := some (("Stroke prevention").toList) }) = true :=
  claim9_intake_invariant [("TI  - Stroke prevention").toList, ("ER  - ").toList]
    { title := some (("Stroke prevention").toList) } (by decide)

end SpecProof
